import Mathlib

/-!
Verification of the introspection/codegen core of the `utils` package
(`utils/_general.py`): the `BijectiveDict` bidirectional map, the
`ReadOnlyDescriptor` read-only field marker, and the stub generator
(`_stub_repr_function_like`, `stub_repr`).

The Python dictionary `BijectiveDict._internal_dict` is embedded as an
insertion-ordered association list `List (α × α)`:
* lookup returns the value of the (unique) entry with the given key;
* assignment updates the value in place when the key exists, otherwise
  appends a fresh entry at the end;
* `del` removes the entry with the given key and fails when it is absent;
* `in`/`len` are membership and raw entry count.
All states reachable by the embedded operations have pairwise distinct keys,
matching Python's dictionary semantics.
-/

namespace Utilities

universe u
variable {α : Type u} [DecidableEq α]

/-- Python `d[k]` on a raw `dict`: the value of the unique entry keyed `k`,
`none` standing for `KeyError`. -/
def dictLookup : List (α × α) → α → Option α
  | [], _ => none
  | (a, b) :: rest, k => if a = k then some b else dictLookup rest k

/-- Python `k in d` on a raw `dict`. -/
def dictContains (d : List (α × α)) (k : α) : Bool :=
  (dictLookup d k).isSome

/-- Python `dict.__setitem__(d, k, v)`: update the value in place when the
key is present, otherwise append a new entry at the end. -/
def dictSet (d : List (α × α)) (k v : α) : List (α × α) :=
  if dictContains d k then d.map (fun p => if p.1 = k then (k, v) else p)
  else d ++ [(k, v)]

/-- Python `dict.__delitem__(d, k)` when the key is known to be present:
remove the (first) entry keyed `k`. -/
def dictDelU : List (α × α) → α → List (α × α)
  | [], _ => []
  | (a, b) :: rest, k => if a = k then rest else (a, b) :: dictDelU rest k

/-- Python `dict.__delitem__(d, k)` with the `KeyError` made explicit. -/
def dictDelC (d : List (α × α)) (k : α) : Option (List (α × α)) :=
  if dictContains d k then some (dictDelU d k) else none

/-- The raw keys of the internal dictionary, in storage order. -/
def dictKeys (d : List (α × α)) : List α :=
  d.map Prod.fst

/-- `BijectiveDict.__getitem__`: `return self._internal_dict[item]`. -/
def bijGet (d : List (α × α)) (item : α) : Option α :=
  dictLookup d item

/-- `BijectiveDict.__setitem__`: delete the entry at `key` when present,
then the entry at `value` when (still) present, then store `key → value`
and `value → key`. -/
def bijSet (d : List (α × α)) (key value : α) : List (α × α) :=
  let d1 := if dictContains d key then dictDelU d key else d
  let d2 := if dictContains d1 value then dictDelU d1 value else d1
  dictSet (dictSet d2 key value) value key

/-- `BijectiveDict.__delitem__`: delete the entry at `self[item]`, then the
entry at `item`; any `KeyError` along the way propagates (`none`). -/
def bijDel (d : List (α × α)) (item : α) : Option (List (α × α)) :=
  match bijGet d item with
  | none => none
  | some partner =>
    match dictDelC d partner with
    | none => none
    | some d1 => dictDelC d1 item

/-- `BijectiveDict.__len__`: raw entry count, floor-divided by two. -/
def bijLen (d : List (α × α)) : Nat :=
  d.length / 2

/-- The internal invariant of a `BijectiveDict` that is maintained by
fresh, distinct insertions and by deletions: keys are pairwise distinct,
every stored entry has its mirror entry stored too, and no entry maps an
element to itself. -/
structure BijInv (d : List (α × α)) : Prop where
  nodup : (dictKeys d).Nodup
  mirror : ∀ a b : α, (a, b) ∈ d → (b, a) ∈ d
  irrefl : ∀ a b : α, (a, b) ∈ d → a ≠ b
  even_len : Even d.length

/-- The valid usage discipline recorded by the amended bijection claim:
starting from the empty map, `set` is called only with a fresh key and a
fresh, distinct value, and `delete` only where it succeeds. -/
inductive Reachable : List (α × α) → Prop
  | empty : Reachable []
  | set {d : List (α × α)} (k v : α) : Reachable d →
      dictContains d k = false → dictContains d v = false → k ≠ v →
      Reachable (bijSet d k v)
  | del {d d' : List (α × α)} (x : α) : Reachable d →
      bijDel d x = some d' → Reachable d'

/-!
The stub generator (`_stub_repr_function_like` and `stub_repr`).

A callable is embedded by the runtime metadata the generator reads:
`__name__`, `__annotations__` (an insertion-ordered mapping whose values
are strings under `from __future__ import annotations`, `None`, or type
objects carrying a `__name__`), and `__defaults__`. A class is embedded by
the data `stub_repr` observes: the `dir()` enumeration paired with each
attribute's classification, the `__bases__` names, the dataclass and
`Singleton`-metaclass flags, the metaclass `__name__`, and `__init__`.
-/

/-- An annotation value as `_stub_repr_function_like` can observe it. -/
inductive PyAnn
  | text (s : String)
  | noneAnn
  | typeObj (name : String)
deriving DecidableEq

/-- `f"{typ}"` after the normalization `typ = typ.__name__` applied to
annotations that are neither strings nor `None`. -/
def renderAnn : PyAnn → String
  | .text s => s
  | .noneAnn => "None"
  | .typeObj n => n

/-- A default value as the generator renders it: a `str` is re-quoted,
anything else contributes its f-string text. -/
inductive PyVal
  | str (s : String)
  | other (text : String)
deriving DecidableEq

/-- The `" = ..."` suffix built for a popped default value. -/
def renderDefault : PyVal → String
  | .str s => " = '" ++ s ++ "'"
  | .other t => " = " ++ t

/-- The function metadata `_stub_repr_function_like` reads. -/
structure PyFunc where
  name : String
  anns : List (String × PyAnn)
  defaults : List PyVal
deriving DecidableEq

/-- The three function-like shapes the generator distinguishes:
`FunctionType`, `MethodType` (a classmethod accessed on the class), and
`functools.cached_property` (which is unwrapped to its `func`). -/
inductive PyFuncLike
  | plain (f : PyFunc)
  | method (f : PyFunc)
  | cachedProp (f : PyFunc)
deriving DecidableEq

/-- The underlying function metadata (after `f = f.func` unwrapping for
`cached_property`). -/
def PyFuncLike.func : PyFuncLike → PyFunc
  | .plain f => f
  | .method f => f
  | .cachedProp f => f

/-- Replace the recorded `__defaults__`. -/
def PyFuncLike.withDefaults : PyFuncLike → List PyVal → PyFuncLike
  | .plain f, ds => .plain { f with defaults := ds }
  | .method f, ds => .method { f with defaults := ds }
  | .cachedProp f, ds => .cachedProp { f with defaults := ds }

/-- Mapping lookup on `__annotations__`. -/
def annLookup : List (String × PyAnn) → String → Option PyAnn
  | [], _ => none
  | (k, v) :: rest, q => if k = q then some v else annLookup rest q

/-- The reverse-order parameter walk of `_stub_repr_function_like`: the
input list is the annotation items in reverse; `return` entries are
skipped; while the defaults list is non-empty its last element is popped
and rendered after the current parameter. -/
def synthAnns : List (String × PyAnn) → List PyVal → List String
  | [], _ => []
  | (param, typ) :: rest, ds =>
    if param = "return" then synthAnns rest ds
    else
      match ds.getLast? with
      | none => (param ++ ": " ++ renderAnn typ) :: synthAnns rest ds
      | some dv =>
        (param ++ ": " ++ renderAnn typ ++ renderDefault dv) ::
          synthAnns rest ds.dropLast

/-- The decorator line chosen from the function-like shape. -/
def decoratorText : PyFuncLike → String
  | .cachedProp _ => "\t@cached_property\n"
  | .method _ => "\t@classmethod\n"
  | .plain _ => ""

/-- The accumulated parameter strings, with `cls` appended for a
`MethodType` and otherwise `self` appended when class-bound. -/
def boundParams (fl : PyFuncLike) (class_bound : Bool) : List String :=
  let base := synthAnns fl.func.anns.reverse fl.func.defaults
  match fl with
  | .method _ => base ++ ["cls"]
  | _ => if class_bound then base ++ ["self"] else base

/-- The `" -> <Type>"` suffix, empty when `__annotations__` has no
`return` entry. -/
def retAnnotation (f : PyFunc) : String :=
  match annLookup f.anns "return" with
  | none => ""
  | some t => " -> " ++ renderAnn t

/-- The signature line of `_stub_repr_function_like` up to and including
the closing parenthesis of the parameter list. -/
def sigCore (fl : PyFuncLike) (class_bound : Bool) : String :=
  decoratorText fl ++ (if class_bound then "\t" else "") ++ "def " ++
    fl.func.name ++ "(" ++
    String.intercalate ", " (boundParams fl class_bound).reverse ++ ")"

/-- `_stub_repr_function_like(f, class_bound)`. -/
def stubReprFunctionLike (fl : PyFuncLike) (class_bound : Bool) : String :=
  sigCore fl class_bound ++ retAnnotation fl.func ++ ": ...\n"

/-- A class attribute as `stub_repr` classifies it via `isinstance`. -/
inductive PyMember
  | funcLike (fl : PyFuncLike)
  | readOnlyDesc
  | signal (text : String)
  | prop (fget fset fdel : Option PyFunc)
  | other
deriving DecidableEq

/-- The class metadata `stub_repr` reads. `members` is the `dir(obj)`
enumeration (which for real classes never has fewer than one `object`
base and lists names in the host's stable order) paired with each
attribute's observed shape. -/
structure PyClass where
  name : String
  members : List (String × PyMember)
  bases : List String
  isSingleton : Bool
  metaName : String
  isDataclass : Bool
  initFunc : PyFunc
deriving DecidableEq

/-- `sig.split('(')[0]`. -/
def sigNamePart (sig : String) : String :=
  (sig.splitOn "(").headD ""

/-- Does `hay` start with `needle` (on character lists)? -/
def charsStartWith : List Char → List Char → Bool
  | [], _ => true
  | _ :: _, [] => false
  | a :: as, b :: bs => a == b && charsStartWith as bs

/-- Does `needle` occur contiguously inside `hay` (on character lists)? -/
def charsOccur (needle : List Char) : List Char → Bool
  | [] => charsStartWith needle []
  | b :: rest => charsStartWith needle (b :: rest) || charsOccur needle rest

/-- Python's substring test `needle in hay`. -/
def strContains (hay needle : String) : Bool :=
  charsOccur needle.data hay.data

/-- Python's `s.startswith(pre)`. -/
def strStartsWith (s pre : String) : Bool :=
  charsStartWith pre.data s.data

/-- The event-channel lines contributed by one `Signal` attribute: one
line per allow-list entry whose name part occurs in `str(cls_attr)`. -/
def signalLines (sigs : List String) (text : String) : List String :=
  sigs.filterMap fun sig =>
    if strContains text (sigNamePart sig) then
      some ("\t" ++ sigNamePart sig ++ " : ClassVar[Signal] = ...  # " ++
        sig ++ "\n")
    else none

/-- The sub-declarations contributed by one `property` attribute, in the
fixed `fget`/`fset`/`fdel` order with the write/delete decorations
parameterized by the sub-function's own name. -/
def propLines (fget fset fdel : Option PyFunc) : List String :=
  (match fget with
   | some f => ["\t@property\n" ++ stubReprFunctionLike (.plain f) true]
   | none => []) ++
  (match fset with
   | some f =>
       ["\t@" ++ f.name ++ ".setter\n" ++ stubReprFunctionLike (.plain f) true]
   | none => []) ++
  (match fdel with
   | some f =>
       ["\t@" ++ f.name ++ ".deleter\n" ++ stubReprFunctionLike (.plain f) true]
   | none => [])

/-- The four accumulators of `stub_repr`'s member loop. -/
structure StubAcc where
  function_likes : List String
  class_vars : List String
  signal_reprs : List String
  properties : List String
deriving DecidableEq

/-- One iteration of `stub_repr`'s `for dir_item in dir(obj)` loop. -/
def stubStep (signals : Option (List String)) (acc : StubAcc)
    (entry : String × PyMember) : StubAcc :=
  if strStartsWith entry.1 "__" then acc
  else
    match entry.2 with
    | .funcLike fl =>
      { acc with function_likes :=
          acc.function_likes ++ [stubReprFunctionLike fl true] }
    | .readOnlyDesc =>
      { acc with class_vars := acc.class_vars ++
          ["\t" ++ entry.1 ++ ": ReadOnlyDescriptor = ReadOnlyDescriptor()\n"] }
    | .signal text =>
      match signals with
      | none => acc
      | some sigs =>
        { acc with signal_reprs := acc.signal_reprs ++ signalLines sigs text }
    | .prop fget fset fdel =>
      { acc with properties := acc.properties ++ propLines fget fset fdel }
    | .other => acc

/-- The member loop of `stub_repr`. -/
def collectMembers (signals : Option (List String))
    (members : List (String × PyMember)) : StubAcc :=
  members.foldl (stubStep signals) ⟨[], [], [], []⟩

/-- The parenthesized base-list suffix of the `class` header line. -/
def basesText (c : PyClass) : String :=
  if c.bases.head? ≠ some "object" then
    let b := String.intercalate ", " c.bases
    let b2 := if c.isSingleton then b ++ ", metaclass=" ++ c.metaName else b
    "(" ++ b2 ++ ")"
  else if c.isSingleton then "(metaclass=" ++ c.metaName ++ ")"
  else ""

/-- `stub_repr(obj, signals, extra_cvs)` on a class object. -/
def stubRepr (c : PyClass) (signals : Option (List String))
    (extra_cvs : Option String) : String :=
  let acc := collectMembers signals c.members
  let class_decorator := if c.isDataclass then "@dataclass\n" else ""
  class_decorator ++ "class " ++ c.name ++ basesText c ++ ":\n" ++
    (if acc.signal_reprs ≠ [] then String.join acc.signal_reprs ++ "\n"
     else "") ++
    (match extra_cvs with
     | some s => s ++ "\n"
     | none => "") ++
    (if acc.class_vars ≠ [] then String.join acc.class_vars ++ "\n"
     else "") ++
    stubReprFunctionLike (.plain c.initFunc) true ++
    String.join acc.function_likes ++
    String.join acc.properties

/-! Per-section views of the member loop, used to state the body layout. -/

/-- The event-channel section, computed directly from the member list. -/
def signalSection (signals : Option (List String))
    (members : List (String × PyMember)) : List String :=
  members.flatMap fun entry =>
    if strStartsWith entry.1 "__" then []
    else
      match entry.2 with
      | .signal text =>
        match signals with
        | none => []
        | some sigs => signalLines sigs text
      | _ => []

/-- The read-only-marker field section. -/
def classVarSection (members : List (String × PyMember)) : List String :=
  members.flatMap fun entry =>
    if strStartsWith entry.1 "__" then []
    else
      match entry.2 with
      | .readOnlyDesc =>
        ["\t" ++ entry.1 ++ ": ReadOnlyDescriptor = ReadOnlyDescriptor()\n"]
      | _ => []

/-- The plain/type-bound method and lazy-attribute section. -/
def funcLikeSection (members : List (String × PyMember)) : List String :=
  members.flatMap fun entry =>
    if strStartsWith entry.1 "__" then []
    else
      match entry.2 with
      | .funcLike fl => [stubReprFunctionLike fl true]
      | _ => []

/-- The accessor-property section. -/
def propSection (members : List (String × PyMember)) : List String :=
  members.flatMap fun entry =>
    if strStartsWith entry.1 "__" then []
    else
      match entry.2 with
      | .prop fget fset fdel => propLines fget fset fdel
      | _ => []

/-- One body section followed by one blank line when non-empty. -/
def sectionBlock (lines : List String) : String :=
  if lines = [] then "" else String.join lines ++ "\n"

/-- The emitted type stub as the amended C5 claim describes the layout:
sections in the fixed order event channels / caller-supplied extras /
read-only fields / constructor / methods and lazy attributes / accessor
properties; each of the first three sections is followed by exactly one
blank line when present and contributes nothing when empty, while the
constructor, method and property sections are contiguous. -/
def stubReprLayout (c : PyClass) (signals : Option (List String))
    (extra_cvs : Option String) : String :=
  (if c.isDataclass then "@dataclass\n" else "") ++
    "class " ++ c.name ++ basesText c ++ ":\n" ++
    sectionBlock (signalSection signals c.members) ++
    (match extra_cvs with
     | some s => s ++ "\n"
     | none => "") ++
    sectionBlock (classVarSection c.members) ++
    stubReprFunctionLike (.plain c.initFunc) true ++
    String.join (funcLikeSection c.members) ++
    String.join (propSection c.members)

/-- A minimal class with a constructor and one plain method. -/
def layoutCexClass : PyClass :=
  { name := "A"
    members := [("m", .funcLike (.plain ⟨"m", [], []⟩))]
    bases := ["object"]
    isSingleton := false
    metaName := "type"
    isDataclass := false
    initFunc := ⟨"__init__", [], []⟩ }

/-! Signature synthesis: default-value matching and the return clause. -/

/-- The number of rendered (non-`return`) entries of an annotation
mapping: the parameters the synthesizer can see. -/
def countParams (anns : List (String × PyAnn)) : Nat :=
  (anns.filter fun p => p.1 != "return").length

/-- Two invocations of the generator on unchanged inputs. -/
def generateTwice (c : PyClass) (signals : Option (List String))
    (extra_cvs : Option String) : String × String :=
  (stubRepr c signals extra_cvs, stubRepr c signals extra_cvs)

/-!
`ReadOnlyDescriptor`. `__set_name__` stores `"_" + name` as the storage
attribute name; `__get__` on an instance delegates to that private shadow
attribute via `getattr`; `__set__` unconditionally raises
`AttributeError` naming the managed field (`storage_name[1:]`) and the
owning class. An instance's attribute dictionary is embedded as an
association list.
-/

/-- The descriptor state after `__set_name__`. -/
structure ReadOnlyDescriptor where
  storage_name : String
deriving DecidableEq

/-- `ReadOnlyDescriptor.__set_name__(owner, name)`. -/
def setName (name : String) : ReadOnlyDescriptor :=
  ⟨"_" ++ name⟩

/-- `getattr(instance, attr)` on an instance attribute dictionary
(`none` standing for `AttributeError`). -/
def getattrLookup {V : Type} : List (String × V) → String → Option V
  | [], _ => none
  | (k, v) :: rest, q => if k = q then some v else getattrLookup rest q

/-- `ReadOnlyDescriptor.__get__` with a non-`None` instance. -/
def descriptorGet {V : Type} (desc : ReadOnlyDescriptor)
    (instanceAttrs : List (String × V)) : Option V :=
  getattrLookup instanceAttrs desc.storage_name

/-- The message of the `AttributeError` raised by
`ReadOnlyDescriptor.__set__`. -/
def descriptorSetMessage (desc : ReadOnlyDescriptor)
    (className : String) : String :=
  "attribute '" ++ desc.storage_name.drop 1 ++ "' of '" ++ className ++
    "' object is read-only"

/-- `ReadOnlyDescriptor.__set__`: always fails, never writes. -/
def descriptorSet {V : Type} (desc : ReadOnlyDescriptor)
    (className : String) (_value : V) : Except String Unit :=
  Except.error (descriptorSetMessage desc className)

/-! Theorems. -/

example : bijSet ([] : List (ℕ × ℕ)) 0 1 = [(0, 1), (1, 0)] := by decide

example : bijSet (bijSet ([] : List (ℕ × ℕ)) 0 1) 0 2
    = [(1, 0), (0, 2), (2, 0)] := by decide

example : bijSet ([] : List (ℕ × ℕ)) 5 5 = [(5, 5)] := by decide

example : bijDel (bijSet ([] : List (ℕ × ℕ)) 5 5) 5 = none := by decide

/-! Toolkit lemmas about the raw-dictionary primitives. -/

theorem dictLookup_eq_none_iff {d : List (α × α)} {k : α} :
    dictLookup d k = none ↔ k ∉ dictKeys d := by
  induction d with
  | nil => simp [dictLookup, dictKeys]
  | cons p rest ih =>
    obtain ⟨a, b⟩ := p
    by_cases h : a = k
    · subst h
      simp [dictLookup, dictKeys]
    · simp [dictLookup, dictKeys, h, ih, Ne.symm h]

theorem dictContains_iff {d : List (α × α)} {k : α} :
    dictContains d k = true ↔ k ∈ dictKeys d := by
  rw [dictContains, Option.isSome_iff_ne_none, not_iff_comm, dictLookup_eq_none_iff]

theorem dictContains_eq_false_iff {d : List (α × α)} {k : α} :
    dictContains d k = false ↔ k ∉ dictKeys d := by
  rw [← dictContains_iff]
  simp

theorem mem_of_dictLookup_eq_some {d : List (α × α)} {k v : α}
    (h : dictLookup d k = some v) : (k, v) ∈ d := by
  induction d with
  | nil => simp [dictLookup] at h
  | cons p rest ih =>
    obtain ⟨a, b⟩ := p
    by_cases hak : a = k
    · simp [dictLookup, hak] at h
      simp [hak, h]
    · simp only [dictLookup, if_neg hak] at h
      exact List.mem_cons_of_mem _ (ih h)

theorem dictLookup_eq_some_of_mem {d : List (α × α)} {k v : α}
    (hnd : (dictKeys d).Nodup) (h : (k, v) ∈ d) : dictLookup d k = some v := by
  induction d with
  | nil => simp at h
  | cons p rest ih =>
    obtain ⟨a, b⟩ := p
    simp only [dictKeys, List.map_cons, List.nodup_cons] at hnd
    rcases List.mem_cons.mp h with heq | hmem
    · obtain ⟨rfl, rfl⟩ := Prod.mk.injEq .. ▸ heq
      simp [dictLookup]
    · have hak : a ≠ k := by
        intro he
        subst he
        exact hnd.1 (by simpa using List.mem_map_of_mem Prod.fst hmem)
      rw [dictLookup, if_neg hak]
      exact ih hnd.2 hmem

omit [DecidableEq α] in
theorem dictKeys_append (d₁ d₂ : List (α × α)) :
    dictKeys (d₁ ++ d₂) = dictKeys d₁ ++ dictKeys d₂ :=
  List.map_append _ _ _

theorem dictSet_of_not_mem {d : List (α × α)} {k : α} (h : k ∉ dictKeys d)
    (v : α) : dictSet d k v = d ++ [(k, v)] := by
  rw [dictSet, if_neg]
  simp [dictContains_iff, h]

theorem dictKeys_dictDelU (d : List (α × α)) (k : α) :
    dictKeys (dictDelU d k) = (dictKeys d).erase k := by
  induction d with
  | nil => rfl
  | cons p rest ih =>
    obtain ⟨a, b⟩ := p
    by_cases h : a = k
    · subst h
      simp only [dictDelU, dictKeys, List.map_cons]
      rw [if_pos trivial, List.erase_cons_head]
    · simp only [dictDelU, if_neg h, dictKeys, List.map_cons]
      rw [List.erase_cons_tail (by simp [h])]
      simp only [dictKeys] at ih
      rw [ih]

theorem mem_dictDelU {d : List (α × α)} (hnd : (dictKeys d).Nodup) {a b k : α} :
    (a, b) ∈ dictDelU d k ↔ (a, b) ∈ d ∧ a ≠ k := by
  induction d with
  | nil => simp [dictDelU]
  | cons p rest ih =>
    obtain ⟨x, y⟩ := p
    simp only [dictKeys, List.map_cons, List.nodup_cons] at hnd
    have ihr := ih hnd.2
    by_cases hxk : x = k
    · subst hxk
      simp only [dictDelU, if_pos rfl, List.mem_cons]
      constructor
      · intro hmem
        have hax : a ≠ x := by
          intro he
          subst he
          exact hnd.1 (by simpa using List.mem_map_of_mem Prod.fst hmem)
        exact ⟨Or.inr hmem, hax⟩
      · rintro ⟨hor, hax⟩
        cases hor with
        | inl he =>
          exact absurd (show a = x from congrArg Prod.fst he) hax
        | inr hm => exact hm
    · simp only [dictDelU, if_neg hxk, List.mem_cons, ihr]
      constructor
      · rintro (he | ⟨hm, hak⟩)
        · have hax : a = x := congrArg Prod.fst he
          exact ⟨Or.inl he, hax ▸ hxk⟩
        · exact ⟨Or.inr hm, hak⟩
      · rintro ⟨he | hm, hak⟩
        · exact Or.inl he
        · exact Or.inr ⟨hm, hak⟩

theorem length_dictDelU_of_mem {d : List (α × α)} {k : α}
    (h : k ∈ dictKeys d) : (dictDelU d k).length + 1 = d.length := by
  have h1 : (dictKeys (dictDelU d k)).length = (dictDelU d k).length :=
    List.length_map _ _
  have h2 : (dictKeys d).length = d.length := List.length_map _ _
  have h3 := List.length_erase_add_one h
  rw [dictKeys_dictDelU d k] at h1
  omega

/-! The shape of the `BijectiveDict` operations on well-behaved inputs. -/

theorem bijSet_fresh {d : List (α × α)} {k v : α} (hk : k ∉ dictKeys d)
    (hv : v ∉ dictKeys d) (hkv : k ≠ v) :
    bijSet d k v = d ++ [(k, v), (v, k)] := by
  have hck : dictContains d k = false := dictContains_eq_false_iff.mpr hk
  have hcv : dictContains d v = false := dictContains_eq_false_iff.mpr hv
  rw [bijSet]
  simp only [hck, hcv, Bool.false_eq_true, if_false]
  rw [dictSet_of_not_mem hk v]
  have hv' : v ∉ dictKeys (d ++ [(k, v)]) := by
    rw [dictKeys_append]
    intro hmem
    rcases List.mem_append.mp hmem with hm | hm
    · exact hv hm
    · exact hkv (show v = k by simpa [dictKeys] using hm).symm
  rw [dictSet_of_not_mem hv' k]
  simp

theorem bijDel_spec {d : List (α × α)} (hnd : (dictKeys d).Nodup) {x p : α}
    (hx : dictLookup d x = some p) :
    bijDel d x =
      if p ∈ dictKeys d ∧ p ≠ x then some (dictDelU (dictDelU d p) x)
      else none := by
  have hxk : x ∈ dictKeys d := List.mem_map_of_mem Prod.fst
    (mem_of_dictLookup_eq_some hx)
  by_cases hp : p ∈ dictKeys d
  · by_cases hpx : p = x
    · subst hpx
      have h2 : p ∉ dictKeys (dictDelU d p) := by
        rw [dictKeys_dictDelU]
        exact hnd.not_mem_erase
      simp [bijDel, bijGet, hx, dictDelC, dictContains_iff, hp, h2]
    · have h2 : x ∈ dictKeys (dictDelU d p) := by
        rw [dictKeys_dictDelU]
        exact (hnd.mem_erase_iff).mpr ⟨Ne.symm hpx, hxk⟩
      simp [bijDel, bijGet, hx, dictDelC, dictContains_iff, hp, hpx, h2]
  · simp [bijDel, bijGet, hx, dictDelC, dictContains_iff, hp]

omit [DecidableEq α] in
theorem bijInv_nil : BijInv ([] : List (α × α)) := by
  refine ⟨by simp [dictKeys], by simp, by simp, ?_⟩
  simp

theorem bijInv_set {d : List (α × α)} {k v : α} (hinv : BijInv d)
    (hk : k ∉ dictKeys d) (hv : v ∉ dictKeys d) (hkv : k ≠ v) :
    BijInv (bijSet d k v) := by
  rw [bijSet_fresh hk hv hkv]
  refine ⟨?_, ?_, ?_, ?_⟩
  · rw [dictKeys_append]
    have : dictKeys [(k, v), (v, k)] = [k, v] := rfl
    rw [this]
    rw [List.nodup_append]
    refine ⟨hinv.nodup, by simp [hkv], ?_⟩
    intro a ha
    simp only [List.mem_cons, List.not_mem_nil, or_false]
    rintro (rfl | rfl)
    · exact hk ha
    · exact hv ha
  · intro a b hab
    rcases List.mem_append.mp hab with hd | htl
    · exact List.mem_append_left _ (hinv.mirror a b hd)
    · simp only [List.mem_cons, List.not_mem_nil, or_false] at htl
      rcases htl with he | he <;>
        · obtain ⟨rfl, rfl⟩ := Prod.mk.injEq .. ▸ he
          simp
  · intro a b hab
    rcases List.mem_append.mp hab with hd | htl
    · exact hinv.irrefl a b hd
    · simp only [List.mem_cons, List.not_mem_nil, or_false] at htl
      rcases htl with he | he
      · obtain ⟨rfl, rfl⟩ := Prod.mk.injEq .. ▸ he
        exact hkv
      · obtain ⟨rfl, rfl⟩ := Prod.mk.injEq .. ▸ he
        exact Ne.symm hkv
  · rw [List.length_append]
    have : ([(k, v), (v, k)] : List (α × α)).length = 2 := rfl
    rw [this]
    rcases hinv.even_len with ⟨m, hm⟩
    exact ⟨m + 1, by omega⟩

theorem bijInv_del {d d' : List (α × α)} (hinv : BijInv d) {x : α}
    (hdel : bijDel d x = some d') : BijInv d' := by
  obtain ⟨p, hx⟩ : ∃ p, dictLookup d x = some p := by
    rcases hlt : dictLookup d x with _ | p
    · rw [bijDel, bijGet, hlt] at hdel
      exact absurd hdel (by simp)
    · exact ⟨p, rfl⟩
  rw [bijDel_spec hinv.nodup hx] at hdel
  by_cases hcond : p ∈ dictKeys d ∧ p ≠ x
  · rw [if_pos hcond] at hdel
    obtain ⟨hp, hpx⟩ := hcond
    obtain rfl : dictDelU (dictDelU d p) x = d' := by
      exact Option.some.injEq .. ▸ hdel
    have hxp : (x, p) ∈ d := mem_of_dictLookup_eq_some hx
    have hpxm : (p, x) ∈ d := hinv.mirror x p hxp
    have hxk : x ∈ dictKeys d := List.mem_map_of_mem Prod.fst hxp
    have hnd1 : (dictKeys (dictDelU d p)).Nodup := by
      rw [dictKeys_dictDelU]
      exact hinv.nodup.erase p
    refine ⟨?_, ?_, ?_, ?_⟩
    · rw [dictKeys_dictDelU, dictKeys_dictDelU]
      exact (hinv.nodup.erase p).erase x
    · intro a b hab
      rw [mem_dictDelU hnd1] at hab
      obtain ⟨hab1, hax⟩ := hab
      rw [mem_dictDelU hinv.nodup] at hab1
      obtain ⟨habd, hap⟩ := hab1
      have hbad : (b, a) ∈ d := hinv.mirror a b habd
      rw [mem_dictDelU hnd1, mem_dictDelU hinv.nodup]
      have hbx : b ≠ x := by
        intro hbe
        have hlb := dictLookup_eq_some_of_mem hinv.nodup hbad
        rw [hbe, hx] at hlb
        have hpa : p = a := by injection hlb
        exact hap hpa.symm
      have hbp : b ≠ p := by
        intro hbe
        have hlb := dictLookup_eq_some_of_mem hinv.nodup hbad
        have hlp := dictLookup_eq_some_of_mem hinv.nodup hpxm
        rw [hbe, hlp] at hlb
        have hxa : x = a := by injection hlb
        exact hax hxa.symm
      exact ⟨⟨hbad, hbp⟩, hbx⟩
    · intro a b hab
      rw [mem_dictDelU hnd1] at hab
      rw [mem_dictDelU hinv.nodup] at hab
      exact hinv.irrefl a b hab.1.1
    · have hp1 : (dictDelU d p).length + 1 = d.length :=
        length_dictDelU_of_mem hp
      have hxk1 : x ∈ dictKeys (dictDelU d p) := by
        rw [dictKeys_dictDelU]
        exact hinv.nodup.mem_erase_iff.mpr ⟨Ne.symm hpx, hxk⟩
      have hp2 : (dictDelU (dictDelU d p) x).length + 1 =
          (dictDelU d p).length := length_dictDelU_of_mem hxk1
      rcases hinv.even_len with ⟨m, hm⟩
      exact ⟨m - 1, by omega⟩
  · rw [if_neg hcond] at hdel
    exact absurd hdel (by simp)

theorem reachable_bijInv {d : List (α × α)} (h : Reachable d) : BijInv d := by
  induction h with
  | empty => exact bijInv_nil
  | set k v _ hk hv hkv ih =>
    exact bijInv_set ih (dictContains_eq_false_iff.mp hk)
      (dictContains_eq_false_iff.mp hv) hkv
  | del x _ hdel ih => exact bijInv_del ih hdel

/-- **C1** (corrected). The bijection invariant does not hold for *every*
sequence of `set`/`delete` operations (see the counterexample: overwriting
a key leaves the displaced partner entry orphaned). Amended claim: for
every sequence of `set`/`delete` operations starting from the empty map in
which every `set` call inserts a fresh key and a fresh, distinct value and
every `delete` call succeeds, at every observation point every stored
entry's partner is also stored (`get (get x) = x` for every present `x`),
and `size()` equals half the raw stored-entry count. -/
theorem bijectiveDict_bijection_invariant {d : List (α × α)}
    (hr : Reachable d) (x y : α) :
    (bijGet d x = some y → bijGet d y = some x) ∧
    2 * bijLen d = d.length := by
  have hinv := reachable_bijInv hr
  constructor
  · intro hxy
    have hmem : (x, y) ∈ d := mem_of_dictLookup_eq_some hxy
    exact dictLookup_eq_some_of_mem hinv.nodup (hinv.mirror x y hmem)
  · rcases hinv.even_len with ⟨m, hm⟩
    simp only [bijLen, hm]
    omega

/-- Witness for the amended C1 theorem at the concrete reachable state
`set(0, 1)` over `ℕ`. -/
theorem bijectiveDict_bijection_invariant_witness :
    (bijGet (bijSet ([] : List (ℕ × ℕ)) 0 1) 0 = some 1 →
      bijGet (bijSet ([] : List (ℕ × ℕ)) 0 1) 1 = some 0) ∧
    2 * bijLen (bijSet ([] : List (ℕ × ℕ)) 0 1) =
      (bijSet ([] : List (ℕ × ℕ)) 0 1).length :=
  bijectiveDict_bijection_invariant
    (Reachable.set 0 1 Reachable.empty rfl rfl (by decide)) 0 1

/-- **C1** counterexample. After `set(0, 1); set(0, 2)` from the empty map,
`1` is still present with `get 1 = 0` but `get (get 1) = get 0 = 2 ≠ 1`,
and the raw stored-entry count is `3`, which is not twice `size()`. -/
theorem bijectiveDict_bijection_invariant_cex :
    bijGet (bijSet (bijSet ([] : List (ℕ × ℕ)) 0 1) 0 2) 1 = some 0 ∧
    bijGet (bijSet (bijSet ([] : List (ℕ × ℕ)) 0 1) 0 2) 0 = some 2 ∧
    2 * bijLen (bijSet (bijSet ([] : List (ℕ × ℕ)) 0 1) 0 2) ≠
      (bijSet (bijSet ([] : List (ℕ × ℕ)) 0 1) 0 2).length := by
  decide

/-- **C2** (corrected). `set(a, b); set(a, c)` on the empty map leaves no
stored entry whose value is `b`, and `get c = a`; but the displaced pair is
*not* removed in both directions: the orphaned entry `b → a` remains, so
`get b = a` still succeeds. Amended claim: `set(k, v)` removes only the
entries stored at key `k` and at key `v` (not their partner entries) before
inserting both directions. -/
theorem overwrite_eviction {a b c : α} (hab : a ≠ b) (hac : a ≠ c)
    (hbc : b ≠ c) :
    bijGet (bijSet (bijSet [] a b) a c) c = some a ∧
    ((bijSet (bijSet [] a b) a c).all fun p => p.2 != b) = true ∧
    bijGet (bijSet (bijSet [] a b) a c) b = some a := by
  have h1 : bijSet ([] : List (α × α)) a b = [(a, b), (b, a)] := by
    simpa using bijSet_fresh (d := ([] : List (α × α)))
      (by simp [dictKeys]) (by simp [dictKeys]) hab
  have h2 : bijSet [(a, b), (b, a)] a c = [(b, a), (a, c), (c, a)] := by
    simp [bijSet, dictContains, dictLookup, dictDelU, dictSet,
      hab, hac, hbc, Ne.symm hab, Ne.symm hac, Ne.symm hbc]
  rw [h1, h2]
  refine ⟨?_, ?_, ?_⟩
  · simp [bijGet, dictLookup, hac, hbc, Ne.symm hac, Ne.symm hbc]
  · simp [List.all_cons, hab, Ne.symm hbc, bne]
  · simp [bijGet, dictLookup]

/-- Witness for the amended C2 theorem at `a, b, c = 0, 1, 2` over `ℕ`. -/
theorem overwrite_eviction_witness :
    bijGet (bijSet (bijSet ([] : List (ℕ × ℕ)) 0 1) 0 2) 2 = some 0 ∧
    ((bijSet (bijSet ([] : List (ℕ × ℕ)) 0 1) 0 2).all
      fun p => p.2 != 1) = true ∧
    bijGet (bijSet (bijSet ([] : List (ℕ × ℕ)) 0 1) 0 2) 1 = some 0 :=
  overwrite_eviction (by decide) (by decide) (by decide)

/-- **C2** counterexample. The claim says `set(k, v)` removes any existing
pair containing `k` *entirely in both directions*; but after
`set(0, 1); set(0, 2)` the entry `1 → 0` of the displaced pair `(0, 1)` is
still stored: `get 1 = some 0` instead of a `KeyNotFound` failure. -/
theorem overwrite_eviction_cex :
    bijGet (bijSet (bijSet ([] : List (ℕ × ℕ)) 0 1) 0 2) 1 = some 0 := by
  decide

/-- **C6** (corrected). `get x` returns the stored partner of `x` and
fails exactly when `x` is absent; but `delete x` does *not* fail exactly
when `x` is absent: it deletes the entry at `self[x]` first and then the
entry at `x`, so it fails also when the stored partner of `x` is absent or
equal to `x` (see the self-pair counterexample). Amended claim: on a map
with distinct keys, `get x` fails iff `x` is absent, and `delete x`
removes the partner entry and the entry at `x` when the partner is a
present key different from `x`, and fails with `KeyNotFound` otherwise —
in particular it fails whenever `x` is absent. The three conjuncts decide
`delete` on every input: the second covers absent `x`, the third covers
present `x` with its stored partner `p`, succeeding exactly when `p` is a
present key different from `x`. -/
theorem lookup_delete_key_errors {d : List (α × α)}
    (hnd : (dictKeys d).Nodup) (x p : α) :
    (bijGet d x = none ↔ x ∉ dictKeys d) ∧
    (bijGet d x = none → bijDel d x = none) ∧
    (bijGet d x = some p →
      bijDel d x = if p ∈ dictKeys d ∧ p ≠ x
        then some (dictDelU (dictDelU d p) x) else none) := by
  refine ⟨dictLookup_eq_none_iff, ?_, ?_⟩
  · intro hx
    simp [bijDel, hx]
  · intro hx
    exact bijDel_spec hnd hx

/-- Witness for the amended C6 theorem at the concrete state `set(0, 1)`
over `ℕ`, querying `x = 0` with partner `p = 1`. -/
theorem lookup_delete_key_errors_witness :
    (bijGet (bijSet ([] : List (ℕ × ℕ)) 0 1) 0 = none ↔
      0 ∉ dictKeys (bijSet ([] : List (ℕ × ℕ)) 0 1)) ∧
    (bijGet (bijSet ([] : List (ℕ × ℕ)) 0 1) 0 = none →
      bijDel (bijSet ([] : List (ℕ × ℕ)) 0 1) 0 = none) ∧
    (bijGet (bijSet ([] : List (ℕ × ℕ)) 0 1) 0 = some 1 →
      bijDel (bijSet ([] : List (ℕ × ℕ)) 0 1) 0 =
        if 1 ∈ dictKeys (bijSet ([] : List (ℕ × ℕ)) 0 1) ∧ (1 : ℕ) ≠ 0
          then some (dictDelU (dictDelU (bijSet ([] : List (ℕ × ℕ)) 0 1) 1) 0)
          else none) :=
  lookup_delete_key_errors (by decide) 0 1

/-- **C6** counterexample. After `set(0, 0)` the key `0` is present
(`get 0 = some 0`), yet `delete 0` fails with `KeyNotFound`: removing the
partner entry already removed the single stored entry. So `delete` does
not fail *only if* the key is absent. -/
theorem lookup_delete_key_errors_cex :
    bijGet (bijSet ([] : List (ℕ × ℕ)) 0 0) 0 = some 0 ∧
    bijDel (bijSet ([] : List (ℕ × ℕ)) 0 0) 0 = none := by
  decide

/-- **C10** (confirmed). Inserting a self-paired entry `set(x, x)` into the
empty map stores a single raw entry, so `size() = 0` even though
`get x = x` succeeds; a subsequent `delete x` fails with `KeyNotFound`
because removing the partner entry and removing the element hit the same
single stored entry. -/
theorem self_pair_edge_case (x : α) :
    bijLen (bijSet [] x x) = 0 ∧
    bijGet (bijSet [] x x) x = some x ∧
    bijDel (bijSet [] x x) x = none := by
  have hset : bijSet ([] : List (α × α)) x x = [(x, x)] := by
    simp [bijSet, dictContains, dictLookup, dictSet, dictDelU]
  rw [hset]
  refine ⟨by norm_num [bijLen], ?_, ?_⟩
  · simp [bijGet, dictLookup]
  · simp [bijDel, bijGet, dictLookup, dictDelC, dictContains, dictDelU]

example :
    stubReprFunctionLike
      (.method ⟨"_stub_repr", [("return", .typeObj "str")], []⟩) true =
    "\t@classmethod\n\tdef _stub_repr(cls) -> str: ...\n" := by decide

example :
    stubReprFunctionLike
      (.plain ⟨"f", [("a", .typeObj "int"), ("b", .typeObj "str")],
        [.str "x"]⟩) false =
    "def f(a: int, b: str = 'x'): ...\n" := by decide

theorem collectMembers_sections (signals : Option (List String))
    (members : List (String × PyMember)) (acc : StubAcc) :
    members.foldl (stubStep signals) acc =
      ⟨acc.function_likes ++ funcLikeSection members,
       acc.class_vars ++ classVarSection members,
       acc.signal_reprs ++ signalSection signals members,
       acc.properties ++ propSection members⟩ := by
  induction members generalizing acc with
  | nil =>
    simp [funcLikeSection, classVarSection, signalSection, propSection]
  | cons entry rest ih =>
    obtain ⟨n, m⟩ := entry
    rw [List.foldl_cons, ih]
    by_cases hn : strStartsWith n "__"
    · simp [stubStep, hn, funcLikeSection, classVarSection, signalSection,
        propSection]
    · cases m with
      | funcLike fl =>
        simp [stubStep, hn, funcLikeSection, classVarSection, signalSection,
          propSection]
      | readOnlyDesc =>
        simp [stubStep, hn, funcLikeSection, classVarSection, signalSection,
          propSection]
      | signal text =>
        cases signals <;>
          simp [stubStep, hn, funcLikeSection, classVarSection,
            signalSection, propSection]
      | prop fget fset fdel =>
        simp [stubStep, hn, funcLikeSection, classVarSection, signalSection,
          propSection]
      | other =>
        simp [stubStep, hn, funcLikeSection, classVarSection, signalSection,
          propSection]

/-- **C5** (corrected). The body sections do appear in the claimed fixed
order, but it is not true that every non-empty body section is separated
from the next by exactly one blank line: only the event-channel, extras
and read-only-field sections get a trailing blank line; the constructor,
methods and properties are emitted contiguously (see the counterexample).
Amended claim: the emitted stub equals the layout with the fixed section
order in which exactly the first three sections are blank-line
terminated when non-empty and empty sections contribute nothing. -/
theorem type_body_layout (c : PyClass) (signals : Option (List String))
    (extra_cvs : Option String) :
    stubRepr c signals extra_cvs = stubReprLayout c signals extra_cvs := by
  rw [stubRepr.eq_def, stubReprLayout.eq_def, collectMembers,
    collectMembers_sections signals c.members ⟨[], [], [], []⟩]
  simp [sectionBlock]

/-- **C5** counterexample. For a class with a (non-empty) constructor
section and a non-empty methods section, the emitted stub contains no
blank line at all: the constructor line is immediately followed by the
method line, contradicting "every non-empty body section is separated
from the next by exactly one blank line". -/
theorem type_body_layout_cex :
    stubRepr layoutCexClass none none =
      "class A:\n\tdef __init__(self): ...\n\tdef m(self): ...\n" ∧
    strContains (stubRepr layoutCexClass none none) "\n\n" = false := by
  decide

theorem synthAnns_drop_extra (l : List (String × PyAnn))
    (extra ds : List PyVal) (h : ds.length = countParams l) :
    synthAnns l (extra ++ ds) = synthAnns l ds := by
  induction l generalizing ds with
  | nil => simp [synthAnns]
  | cons p rest ih =>
    obtain ⟨param, typ⟩ := p
    by_cases hp : param = "return"
    · simp only [synthAnns, if_pos hp]
      refine ih ds ?_
      simpa [countParams, hp] using h
    · have hcount : countParams ((param, typ) :: rest) = countParams rest + 1 := by
        simp [countParams, hp]
      rw [hcount] at h
      have hds : ds ≠ [] := by
        intro hnil
        rw [hnil] at h
        simp at h
      obtain ⟨dv, hlast⟩ : ∃ dv, ds.getLast? = some dv := by
        rcases hl : ds.getLast? with _ | dv
        · exact absurd (List.getLast?_eq_none_iff.mp hl) hds
        · exact ⟨dv, rfl⟩
      have hlast' : (extra ++ ds).getLast? = some dv := by
        rw [List.getLast?_append, hlast]
        rfl
      have hdrop : (extra ++ ds).dropLast = extra ++ ds.dropLast :=
        List.dropLast_append_of_ne_nil _ hds
      have hlen : ds.dropLast.length = countParams rest := by
        have := List.length_dropLast ds
        omega
      simp only [synthAnns, if_neg hp, hlast', hlast, hdrop]
      rw [ih ds.dropLast hlen]

theorem countParams_reverse (anns : List (String × PyAnn)) :
    countParams anns.reverse = countParams anns := by
  simp [countParams, List.filter_reverse]

/-- **C3** (corrected). Signature synthesis does not abort when more
defaults are recorded than (annotated) parameters: there is no error path
at all. The excess leading defaults are silently ignored — the emitted
signature is the one obtained from just the trailing defaults that match
the parameter count — and a complete signature line is still produced. -/
theorem malformed_signature_no_abort (fl : PyFuncLike) (class_bound : Bool)
    (extra ds : List PyVal) (h : ds.length = countParams fl.func.anns) :
    stubReprFunctionLike (fl.withDefaults (extra ++ ds)) class_bound =
      stubReprFunctionLike (fl.withDefaults ds) class_bound := by
  have hsynth : synthAnns fl.func.anns.reverse (extra ++ ds) =
      synthAnns fl.func.anns.reverse ds := by
    refine synthAnns_drop_extra _ extra ds ?_
    rw [countParams_reverse]
    exact h
  cases fl with
  | plain f =>
    simp only [stubReprFunctionLike, sigCore, decoratorText, boundParams,
      PyFuncLike.withDefaults, PyFuncLike.func, retAnnotation] at *
    rw [hsynth]
  | method f =>
    simp only [stubReprFunctionLike, sigCore, decoratorText, boundParams,
      PyFuncLike.withDefaults, PyFuncLike.func, retAnnotation] at *
    rw [hsynth]
  | cachedProp f =>
    simp only [stubReprFunctionLike, sigCore, decoratorText, boundParams,
      PyFuncLike.withDefaults, PyFuncLike.func, retAnnotation] at *
    rw [hsynth]

/-- Witness for the amended C3 theorem: one excess default (`1`) before
the single matching default (`2`) of a one-parameter function. -/
theorem malformed_signature_no_abort_witness :
    stubReprFunctionLike ((PyFuncLike.plain ⟨"f", [("p", PyAnn.typeObj "int")],
        []⟩).withDefaults ([.other "1"] ++ [.other "2"])) false =
      stubReprFunctionLike ((PyFuncLike.plain ⟨"f", [("p", PyAnn.typeObj "int")],
        []⟩).withDefaults [.other "2"]) false :=
  malformed_signature_no_abort _ false [.other "1"] [.other "2"] (by decide)

/-- **C3** counterexample. For a callable recording two defaults but only
one (annotated) parameter, the synthesizer emits a complete signature —
`def f(p: int = 2): ...` — instead of aborting with a descriptive error:
no error path exists in `_stub_repr_function_like`. -/
theorem malformed_signature_no_abort_cex :
    ([PyVal.other "1", PyVal.other "2"] : List PyVal).length >
      countParams [("p", PyAnn.typeObj "int")] ∧
    stubReprFunctionLike (.plain ⟨"p", [("p", .typeObj "int")],
      [.other "1", .other "2"]⟩) false = "def p(p: int = 2): ...\n" := by
  decide

/-- **C4** (corrected). Default matching does run from the last parameter
backward and the list is reversed into declaration order, with string
defaults re-quoted and other defaults rendered literally — but only the
*annotated* parameters participate (the synthesizer walks
`__annotations__`, not the parameter list), and every rendered parameter
carries its `name: type` annotation text. For annotated parameters
`(p1: T1, p2: T2 = 1, p3: T3 = 'x')` the rendered list is
`p1: T1, p2: T2 = 1, p3: T3 = 'x'` in declaration order; the bare
rendering `p1, p2 = 1, p3 = 'x'` of the claim is never produced. -/
theorem default_matching (name p1 p2 p3 : String) (t1 t2 t3 : PyAnn)
    (h1 : p1 ≠ "return") (h2 : p2 ≠ "return") (h3 : p3 ≠ "return") :
    (boundParams (.plain ⟨name, [(p1, t1), (p2, t2), (p3, t3)],
        [.other "1", .str "x"]⟩) false).reverse =
      [p1 ++ ": " ++ renderAnn t1,
       p2 ++ ": " ++ renderAnn t2 ++ " = 1",
       p3 ++ ": " ++ renderAnn t3 ++ " = 'x'"] ∧
    stubReprFunctionLike (.plain ⟨name, [(p1, t1), (p2, t2), (p3, t3)],
        [.other "1", .str "x"]⟩) false =
      "def " ++ name ++ "(" ++
        String.intercalate ", "
          [p1 ++ ": " ++ renderAnn t1,
           p2 ++ ": " ++ renderAnn t2 ++ " = 1",
           p3 ++ ": " ++ renderAnn t3 ++ " = 'x'"] ++ ")" ++ ": ...\n" := by
  have hq : renderDefault (.str "x") = " = 'x'" := rfl
  have ho : renderDefault (.other "1") = " = 1" := rfl
  have hbase : synthAnns [(p1, t1), (p2, t2), (p3, t3)].reverse
      [.other "1", .str "x"] =
      [p3 ++ ": " ++ renderAnn t3 ++ " = 'x'",
       p2 ++ ": " ++ renderAnn t2 ++ " = 1",
       p1 ++ ": " ++ renderAnn t1] := by
    simp only [List.reverse_cons, List.reverse_nil, List.nil_append,
      List.cons_append, synthAnns, if_neg h3, if_neg h2, if_neg h1]
    norm_num [hq, ho, String.append_assoc]
  have hlist : (boundParams (.plain ⟨name, [(p1, t1), (p2, t2), (p3, t3)],
      [.other "1", .str "x"]⟩) false).reverse =
      [p1 ++ ": " ++ renderAnn t1,
       p2 ++ ": " ++ renderAnn t2 ++ " = 1",
       p3 ++ ": " ++ renderAnn t3 ++ " = 'x'"] := by
    simp only [boundParams, PyFuncLike.func, hbase]
    simp
  refine ⟨hlist, ?_⟩
  rw [stubReprFunctionLike, sigCore, retAnnotation]
  have hret : annLookup [(p1, t1), (p2, t2), (p3, t3)] "return" = none := by
    simp [annLookup, h1, h2, h3]
  simp only [PyFuncLike.func] at hret ⊢
  rw [hret, hlist]
  simp [decoratorText, String.append_assoc]

/-- Witness for the amended C4 theorem at concrete names and types. -/
theorem default_matching_witness :
    (boundParams (.plain ⟨"f", [("p1", PyAnn.typeObj "int"),
        ("p2", PyAnn.typeObj "int"), ("p3", PyAnn.typeObj "str")],
        [.other "1", .str "x"]⟩) false).reverse =
      ["p1" ++ ": " ++ renderAnn (PyAnn.typeObj "int"),
       "p2" ++ ": " ++ renderAnn (PyAnn.typeObj "int") ++ " = 1",
       "p3" ++ ": " ++ renderAnn (PyAnn.typeObj "str") ++ " = 'x'"] ∧
    stubReprFunctionLike (.plain ⟨"f", [("p1", PyAnn.typeObj "int"),
        ("p2", PyAnn.typeObj "int"), ("p3", PyAnn.typeObj "str")],
        [.other "1", .str "x"]⟩) false =
      "def " ++ "f" ++ "(" ++
        String.intercalate ", "
          ["p1" ++ ": " ++ renderAnn (PyAnn.typeObj "int"),
           "p2" ++ ": " ++ renderAnn (PyAnn.typeObj "int") ++ " = 1",
           "p3" ++ ": " ++ renderAnn (PyAnn.typeObj "str") ++ " = 'x'"] ++
        ")" ++ ": ...\n" :=
  default_matching "f" "p1" "p2" "p3" _ _ _
    (by decide) (by decide) (by decide)

/-- **C4** counterexample. A function whose parameters `(p1, p2=1, p3='x')`
carry no annotations renders an *empty* parameter list (unannotated
parameters are invisible to the synthesizer), and the fully annotated
variant renders `p1: int, p2: int = 1, p3: str = 'x'`; in neither case is
the claimed exact text `p1, p2 = 1, p3 = 'x'` produced. -/
theorem default_matching_cex :
    stubReprFunctionLike (.plain ⟨"f", [], [.other "1", .str "x"]⟩) false =
      "def f(): ...\n" ∧
    stubReprFunctionLike (.plain ⟨"f", [("p1", .typeObj "int"),
        ("p2", .typeObj "int"), ("p3", .typeObj "str")],
        [.other "1", .str "x"]⟩) false =
      "def f(p1: int, p2: int = 1, p3: str = 'x'): ...\n" := by
  decide

/-- **C8** (confirmed). A callable with no `return` entry in its
annotations is rendered with no arrow clause at all — the signature is the
core `def name(params)` followed immediately by the empty-body marker —
while a callable declaring a return type `t` is rendered with the
arrow-suffix `-> t` between the parameter list and the empty-body
marker. -/
theorem return_type_omission (fl : PyFuncLike) (class_bound : Bool)
    (t : PyAnn) :
    (annLookup fl.func.anns "return" = none →
      stubReprFunctionLike fl class_bound =
        sigCore fl class_bound ++ ": ...\n") ∧
    (annLookup fl.func.anns "return" = some t →
      stubReprFunctionLike fl class_bound =
        sigCore fl class_bound ++ " -> " ++ renderAnn t ++ ": ...\n") := by
  constructor
  · intro h
    rw [stubReprFunctionLike, retAnnotation, h]
    simp
  · intro h
    rw [stubReprFunctionLike, retAnnotation, h]
    simp [String.append_assoc]

/-- Witness for C8: a function without and a function with a declared
return type. -/
theorem return_type_omission_witness :
    stubReprFunctionLike (.plain ⟨"f", [], []⟩) false =
      sigCore (.plain ⟨"f", [], []⟩) false ++ ": ...\n" ∧
    stubReprFunctionLike (.plain ⟨"g", [("return", .typeObj "int")], []⟩)
        false =
      sigCore (.plain ⟨"g", [("return", .typeObj "int")], []⟩) false ++
        " -> " ++ renderAnn (.typeObj "int") ++ ": ...\n" :=
  ⟨(return_type_omission (.plain ⟨"f", [], []⟩) false (.typeObj "int")).1
      rfl,
   (return_type_omission (.plain ⟨"g", [("return", .typeObj "int")], []⟩)
      false (.typeObj "int")).2 rfl⟩

/-- **C9** (confirmed). Stub generation depends on nothing beyond the
input type data, the event-channel allow-list and the extra declarations:
the embedding is a pure function of exactly those inputs, so generating
twice with no mutation in between yields byte-identical text. -/
theorem stub_determinism (c : PyClass) (signals : Option (List String))
    (extra_cvs : Option String) :
    (generateTwice c signals extra_cvs).1 =
      (generateTwice c signals extra_cvs).2 := rfl

theorem drop_one_of_underscore_append (name : String) :
    ("_" ++ name).drop 1 = name := by
  rw [String.drop_eq]
  cases name
  rfl

/-- **C7** (confirmed). Every write through a `ReadOnlyDescriptor`-managed
attribute fails with an error whose message names both the managed field
and the owning type — the result is always the error, so it is never
recovered into a success — and reading through the descriptor on an
instance delegates to the private shadow attribute `"_" + name`. -/
theorem read_only_marker_contract {V : Type} (name className : String)
    (value : V) (instanceAttrs : List (String × V)) :
    descriptorSet (setName name) className value =
      Except.error ("attribute '" ++ name ++ "' of '" ++ className ++
        "' object is read-only") ∧
    descriptorGet (setName name) instanceAttrs =
      getattrLookup instanceAttrs ("_" ++ name) := by
  constructor
  · rw [descriptorSet, descriptorSetMessage, setName,
      drop_one_of_underscore_append]
  · rfl

end Utilities
